import Mathlib

/-!
Shallow embedding of the UVM assembler (`practic3/main.py`).

The assembler turns a list of instruction records (a mnemonic string plus a
dictionary of named non-negative integer operands) into a flat byte stream.
Python dictionaries are modelled as association lists, Python's `KeyError`
and `TypeError` as an `Except` error monad, and `struct.pack` on values that
provably fit as the corresponding little-endian byte list.
-/

/-- Python exceptions that the assembler can raise on the inputs we model:
`KeyError k` from a failed dictionary lookup `d[k]`, and the `TypeError`
raised by `bytes + None` when `encode_command` falls through and returns
`None` for an unrecognized mnemonic. -/
inductive PyErr where
  | keyError (key : String)
  | typeError
  deriving DecidableEq

/-- An input record from the JSON program: its `"type"` string and the
remaining named integer operands (e.g. `constant`, `address`). -/
structure SrcCmd where
  type : String
  args : List (String × Nat)
  deriving DecidableEq

/-- An intermediate command as built by `parse_program`: the `type` string
and the field dictionary with keys `"A"`, `"B"`, `"C"` (and `"D"`). -/
structure Cmd where
  type : String
  fields : List (String × Nat)
  deriving DecidableEq

/-- Dictionary lookup, first matching key wins (keys are unique in all the
dictionaries the assembler builds, matching Python `dict`). -/
def lookup_field : List (String × Nat) → String → Option Nat
  | [], _ => none
  | (k, v) :: rest, key => if k = key then some v else lookup_field rest key

/-- Python `d[k]`: the value when the key is present, `KeyError k` otherwise. -/
def dictGet (d : List (String × Nat)) (k : String) : Except PyErr Nat :=
  match lookup_field d k with
  | some v => .ok v
  | none => .error (.keyError k)

/-- The `self.commands` opcode table of `UVMAssembler.__init__`. -/
def commands : List (String × Nat) :=
  [("load_const", 11), ("read_mem", 24), ("write_mem", 30), ("abs", 7)]

/-- One iteration of the loop in `UVMAssembler.parse_program`: build the
field dictionary for the record.  An unrecognized mnemonic leaves the field
dictionary empty and the record is still appended. -/
def parse_cmd (cmd : SrcCmd) : Except PyErr Cmd :=
  if cmd.type = "load_const" then do
    let a ← dictGet commands "load_const"
    let b ← dictGet cmd.args "constant"
    let c ← dictGet cmd.args "address"
    pure { type := cmd.type, fields := [("A", a), ("B", b), ("C", c)] }
  else if cmd.type = "read_mem" then do
    let a ← dictGet commands "read_mem"
    let b ← dictGet cmd.args "result_addr"
    let c ← dictGet cmd.args "source_addr"
    pure { type := cmd.type, fields := [("A", a), ("B", b), ("C", c)] }
  else if cmd.type = "write_mem" then do
    let a ← dictGet commands "write_mem"
    let b ← dictGet cmd.args "offset"
    let c ← dictGet cmd.args "value_addr"
    let d ← dictGet cmd.args "base_addr"
    pure { type := cmd.type, fields := [("A", a), ("B", b), ("C", c), ("D", d)] }
  else if cmd.type = "abs" then do
    let a ← dictGet commands "abs"
    let b ← dictGet cmd.args "result_addr"
    let c ← dictGet cmd.args "source_addr"
    pure { type := cmd.type, fields := [("A", a), ("B", b), ("C", c)] }
  else
    pure { type := cmd.type, fields := [] }

/-- `UVMAssembler.parse_program`: parse every record, in order. -/
def parse_program : List SrcCmd → Except PyErr (List Cmd)
  | [] => .ok []
  | c :: cs => do
    let c2 ← parse_cmd c
    let cs2 ← parse_program cs
    pure (c2 :: cs2)

/-- `struct.pack('<I', v)`: the four little-endian bytes of a 32-bit word
(every word the encoder builds fits in 27 bits, so the pack never fails). -/
def pack_le32 (v : Nat) : List Nat :=
  [v &&& 0xFF, (v >>> 8) &&& 0xFF, (v >>> 16) &&& 0xFF, (v >>> 24) &&& 0xFF]

/-- `UVMAssembler.encode_command`: pack one intermediate command into its
byte list; `none` models the Python `return None` fall-through for an
unrecognized `type`. -/
def encode_command (cmd : Cmd) : Except PyErr (Option (List Nat)) :=
  if cmd.type = "load_const" then do
    let A ← dictGet cmd.fields "A"
    let B ← dictGet cmd.fields "B"
    let C ← dictGet cmd.fields "C"
    let value := (A &&& 0x3F) ||| ((B &&& 0x3FFF) <<< 6) ||| ((C &&& 0x7F) <<< 20)
    pure (some (pack_le32 value))
  else if cmd.type = "read_mem" ∨ cmd.type = "abs" then do
    let A ← dictGet cmd.fields "A"
    let B ← dictGet cmd.fields "B"
    let C ← dictGet cmd.fields "C"
    let byte1 := A &&& 0x3F
    let byte2 := ((B &&& 0x7F) <<< 1) ||| ((C >>> 6) &&& 0x01)
    let byte3 := C &&& 0x3F
    pure (some [byte1, byte2, byte3])
  else if cmd.type = "write_mem" then do
    let A ← dictGet cmd.fields "A"
    let B ← dictGet cmd.fields "B"
    let C ← dictGet cmd.fields "C"
    let D ← dictGet cmd.fields "D"
    let byte1 := A &&& 0x3F
    let byte2 := (B >>> 8) &&& 0x3F
    let byte3 := B &&& 0xFF
    let byte4 := ((C &&& 0x7F) <<< 1) ||| ((D >>> 6) &&& 0x01)
    let byte5 := D &&& 0x3F
    pure (some [byte1, byte2, byte3, byte4, byte5])
  else
    pure none

/-- Python `binary_data += cmd_binary`: appends the bytes, or raises
`TypeError` when `encode_command` returned `None`. -/
def concat_bytes (binary_data : List Nat) (cmd_binary : Option (List Nat)) :
    Except PyErr (List Nat) :=
  match cmd_binary with
  | some bs => .ok (binary_data ++ bs)
  | none => .error .typeError

/-- The loop of `UVMAssembler.assemble_to_binary`, starting from the
accumulated `binary_data`. -/
def assemble_loop : List Cmd → List Nat → Except PyErr (List Nat)
  | [], acc => .ok acc
  | c :: cs, acc => do
    let ob ← encode_command c
    let acc2 ← concat_bytes acc ob
    assemble_loop cs acc2

/-- `UVMAssembler.assemble_to_binary` without the file write: produce the
concatenated byte stream (the file receives exactly this value). -/
def assemble_to_binary (intermediate : List Cmd) : Except PyErr (List Nat) :=
  assemble_loop intermediate []

/-- The whole pipeline of `__main__`: parse the program, then encode it. -/
def assemble (prog : List SrcCmd) : Except PyErr (List Nat) :=
  match parse_program prog with
  | .ok intermediate => assemble_to_binary intermediate
  | .error e => .error e

/-- Bytes that reach the output file: `assemble_to_binary` opens the file
only after the whole loop has finished, so an exception anywhere in the
pipeline means the sink receives zero bytes. -/
def sink_bytes (r : Except PyErr (List Nat)) : List Nat :=
  match r with
  | .ok b => b
  | .error _ => []

/-- Shorthand for the 3-field intermediate commands `parse_program` builds. -/
def mkCmd3 (t : String) (a b c : Nat) : Cmd :=
  { type := t, fields := [("A", a), ("B", b), ("C", c)] }

/-- Shorthand for the 4-field intermediate command of `write_mem`. -/
def mkCmd4 (t : String) (a b c d : Nat) : Cmd :=
  { type := t, fields := [("A", a), ("B", b), ("C", c), ("D", d)] }

section BitArith

lemma and63_eq_mod (x : Nat) : x &&& 63 = x % 64 := by
  simpa using Nat.and_pow_two_sub_one_eq_mod x 6

lemma and127_eq_mod (x : Nat) : x &&& 127 = x % 128 := by
  simpa using Nat.and_pow_two_sub_one_eq_mod x 7

lemma and255_eq_mod (x : Nat) : x &&& 255 = x % 256 := by
  simpa using Nat.and_pow_two_sub_one_eq_mod x 8

lemma and16383_eq_mod (x : Nat) : x &&& 16383 = x % 16384 := by
  simpa using Nat.and_pow_two_sub_one_eq_mod x 14

lemma shr6_eq_div (x : Nat) : x >>> 6 = x / 64 := by
  simpa using Nat.shiftRight_eq_div_pow x 6

lemma shr8_eq_div (x : Nat) : x >>> 8 = x / 256 := by
  simpa using Nat.shiftRight_eq_div_pow x 8

lemma shr16_eq_div (x : Nat) : x >>> 16 = x / 65536 := by
  simpa using Nat.shiftRight_eq_div_pow x 16

lemma shr24_eq_div (x : Nat) : x >>> 24 = x / 16777216 := by
  simpa using Nat.shiftRight_eq_div_pow x 24

lemma lor_shift_eq_add (b x n : Nat) (hb : b < 2 ^ n) :
    b ||| (x <<< n) = 2 ^ n * x + b := by
  rw [Nat.lor_comm, Nat.shiftLeft_eq, Nat.mul_comm]
  exact (Nat.mul_add_lt_is_or hb x).symm

/-- The second byte of the 3-byte layout, in div/mod form. -/
lemma byte2_arith (B C : Nat) :
    ((B &&& 127) <<< 1) ||| ((C >>> 6) &&& 1) = 2 * (B % 128) + C / 64 % 2 := by
  have hb : (C >>> 6) &&& 1 < 2 ^ 1 := by
    rw [Nat.and_one_is_mod, pow_one]
    exact Nat.mod_lt _ (by norm_num)
  rw [Nat.lor_comm, lor_shift_eq_add _ _ 1 hb, and127_eq_mod, Nat.and_one_is_mod,
    shr6_eq_div]
  omega

/-- The packed `load_const` word, in plain arithmetic form. -/
lemma word_arith (A B C : Nat) :
    (A &&& 63) ||| ((B &&& 16383) <<< 6) ||| ((C &&& 127) <<< 20) =
      1048576 * (C % 128) + 64 * (B % 16384) + A % 64 := by
  have h1 : (A &&& 63) ||| ((B &&& 16383) <<< 6) =
      2 ^ 6 * (B &&& 16383) + (A &&& 63) := by
    refine lor_shift_eq_add _ _ 6 ?_
    rw [and63_eq_mod]
    exact Nat.lt_of_lt_of_le (Nat.mod_lt _ (by norm_num)) (by norm_num)
  have h2 : (2 ^ 6 * (B &&& 16383) + (A &&& 63)) ||| ((C &&& 127) <<< 20) =
      2 ^ 20 * (C &&& 127) + (2 ^ 6 * (B &&& 16383) + (A &&& 63)) := by
    refine lor_shift_eq_add _ _ 20 ?_
    rw [and63_eq_mod, and16383_eq_mod]
    have hA : A % 64 < 64 := Nat.mod_lt _ (by norm_num)
    have hB : B % 16384 < 16384 := Nat.mod_lt _ (by norm_num)
    omega
  rw [h1, h2, and63_eq_mod, and16383_eq_mod, and127_eq_mod]
  ring_nf

end BitArith

/-- C1: for every `load_const` record with non-negative operands `constant`
and `address`, `parse_program`'s record feeds `encode_command`, which
returns exactly the 4 little-endian bytes of the 32-bit word
`(11 & 0x3F) | ((constant & 0x3FFF) << 6) | ((address & 0x7F) << 20)`, and
bits 27-31 of that word are zero. -/
theorem load_const_encodes_le32_word (k a : Nat) :
    parse_cmd { type := "load_const", args := [("constant", k), ("address", a)] } =
      .ok (mkCmd3 "load_const" 11 k a) ∧
    encode_command (mkCmd3 "load_const" 11 k a) =
      .ok (some (pack_le32 ((11 &&& 0x3F) ||| ((k &&& 0x3FFF) <<< 6) ||| ((a &&& 0x7F) <<< 20)))) ∧
    pack_le32 ((11 &&& 0x3F) ||| ((k &&& 0x3FFF) <<< 6) ||| ((a &&& 0x7F) <<< 20)) =
      [((11 &&& 0x3F) ||| ((k &&& 0x3FFF) <<< 6) ||| ((a &&& 0x7F) <<< 20)) % 256,
       ((11 &&& 0x3F) ||| ((k &&& 0x3FFF) <<< 6) ||| ((a &&& 0x7F) <<< 20)) / 256 % 256,
       ((11 &&& 0x3F) ||| ((k &&& 0x3FFF) <<< 6) ||| ((a &&& 0x7F) <<< 20)) / 65536 % 256,
       ((11 &&& 0x3F) ||| ((k &&& 0x3FFF) <<< 6) ||| ((a &&& 0x7F) <<< 20)) / 16777216 % 256] ∧
    (pack_le32 ((11 &&& 0x3F) ||| ((k &&& 0x3FFF) <<< 6) ||| ((a &&& 0x7F) <<< 20))).length = 4 ∧
    ((11 &&& 0x3F) ||| ((k &&& 0x3FFF) <<< 6) ||| ((a &&& 0x7F) <<< 20)) >>> 27 = 0 := by
  refine ⟨by rfl, by rfl, ?_, ?_, ?_⟩
  · simp [pack_le32, and255_eq_mod, shr8_eq_div, shr16_eq_div, shr24_eq_div]
  · simp [pack_le32]
  · have hlt : ((11 &&& 0x3F) ||| ((k &&& 0x3FFF) <<< 6) ||| ((a &&& 0x7F) <<< 20)) < 2 ^ 27 := by
      rw [word_arith]
      have h1 : a % 128 < 128 := Nat.mod_lt _ (by norm_num)
      have h2 : k % 16384 < 16384 := Nat.mod_lt _ (by norm_num)
      have h3 : (11 : Nat) % 64 < 64 := Nat.mod_lt _ (by norm_num)
      omega
    have := Nat.shiftRight_eq_div_pow
      ((11 &&& 0x3F) ||| ((k &&& 0x3FFF) <<< 6) ||| ((a &&& 0x7F) <<< 20)) 27
    rw [this]
    exact Nat.div_eq_of_lt hlt

/-- C9 counterexample: the code encodes `load_const{constant=693, address=81}`
to the bytes `[0x4B, 0xAD, 0x10, 0x05]` (word `0x0510AD4B`), which are not
the little-endian bytes of the claimed word `0x1445000B`. -/
theorem load_const_693_81_not_0x1445000B :
    encode_command (mkCmd3 "load_const" 11 693 81) =
      .ok (some [0x4B, 0xAD, 0x10, 0x05]) ∧
    pack_le32 0x1445000B = [0x0B, 0x00, 0x45, 0x14] ∧
    ([0x4B, 0xAD, 0x10, 0x05] : List Nat) ≠ [0x0B, 0x00, 0x45, 0x14] := by
  refine ⟨by rfl, by rfl, by decide⟩

/-- C9 (amended): assembling the single record
`load_const{constant=693, address=81}` produces the 32-bit word `0x0510AD4B`
(the value of `11 | (693 << 6) | (81 << 20)`), emitted as its 4
little-endian bytes `[0x4B, 0xAD, 0x10, 0x05]`. -/
theorem load_const_693_81_encoding :
    assemble [{ type := "load_const", args := [("constant", 693), ("address", 81)] }] =
      .ok (pack_le32 0x0510AD4B) ∧
    (11 ||| (693 <<< 6) ||| (81 <<< 20)) = 0x0510AD4B ∧
    pack_le32 0x0510AD4B = [0x4B, 0xAD, 0x10, 0x05] := by
  refine ⟨by rfl, by rfl, by rfl⟩

/-- C2: for every `read_mem` record (opcode 24) and every `abs` record
(opcode 7) with non-negative operands `result_addr` (B) and `source_addr`
(C), the Field Packer returns exactly the 3 bytes
`[opcode & 0x3F, ((B & 0x7F) << 1) | ((C >> 6) & 0x01), C & 0x3F]`;
in particular `read_mem{result_addr=94, source_addr=29}` encodes to
`[0x18, 0xBC, 0x1D]`. -/
theorem read_mem_abs_encode_3_bytes (B C : Nat) :
    parse_cmd { type := "read_mem", args := [("result_addr", B), ("source_addr", C)] } =
      .ok (mkCmd3 "read_mem" 24 B C) ∧
    encode_command (mkCmd3 "read_mem" 24 B C) =
      .ok (some [24 &&& 0x3F, ((B &&& 0x7F) <<< 1) ||| ((C >>> 6) &&& 0x01), C &&& 0x3F]) ∧
    parse_cmd { type := "abs", args := [("result_addr", B), ("source_addr", C)] } =
      .ok (mkCmd3 "abs" 7 B C) ∧
    encode_command (mkCmd3 "abs" 7 B C) =
      .ok (some [7 &&& 0x3F, ((B &&& 0x7F) <<< 1) ||| ((C >>> 6) &&& 0x01), C &&& 0x3F]) ∧
    encode_command (mkCmd3 "read_mem" 24 94 29) = .ok (some [0x18, 0xBC, 0x1D]) := by
  exact ⟨rfl, rfl, rfl, rfl, rfl⟩

/-- C3: for every `write_mem` record (opcode 30) with non-negative operands
`offset`, `value_addr`, `base_addr`, the Field Packer returns exactly the
5 bytes `[opcode & 0x3F, (offset >> 8) & 0x3F, offset & 0xFF,
((value_addr & 0x7F) << 1) | ((base_addr >> 6) & 0x01), base_addr & 0x3F]`. -/
theorem write_mem_encode_5_bytes (off v d : Nat) :
    parse_cmd ⟨"write_mem", [("offset", off), ("value_addr", v), ("base_addr", d)]⟩ =
      .ok (mkCmd4 "write_mem" 30 off v d) ∧
    encode_command (mkCmd4 "write_mem" 30 off v d) =
      .ok (some [30 &&& 0x3F, (off >>> 8) &&& 0x3F, off &&& 0xFF,
        ((v &&& 0x7F) <<< 1) ||| ((d >>> 6) &&& 0x01), d &&& 0x3F]) := by
  exact ⟨rfl, rfl⟩

/-- C10: for every pair of operand values, the encodings of a `read_mem`
record and an `abs` record with those operands share their second and third
bytes and differ only in the first byte (`24 & 0x3F = 24` versus
`7 & 0x3F = 7`): the two 3-byte mnemonics go through one packing branch. -/
theorem read_mem_abs_share_tail (B C : Nat) :
    ∃ tail : List Nat,
      encode_command (mkCmd3 "read_mem" 24 B C) = .ok (some (24 :: tail)) ∧
      encode_command (mkCmd3 "abs" 7 B C) = .ok (some (7 :: tail)) ∧
      (24 : Nat) = 24 &&& 0x3F ∧ (7 : Nat) = 7 &&& 0x3F := by
  exact ⟨[((B &&& 0x7F) <<< 1) ||| ((C >>> 6) &&& 0x01), C &&& 0x3F], rfl, rfl, rfl, rfl⟩

/-- Normal form of `encode_command` on the `load_const` field map. -/
lemma encode_load_const_eq (a b c : Nat) :
    encode_command (mkCmd3 "load_const" a b c) =
      .ok (some (pack_le32 ((a &&& 0x3F) ||| ((b &&& 0x3FFF) <<< 6) ||| ((c &&& 0x7F) <<< 20)))) :=
  rfl

/-- Normal form of `encode_command` on the `read_mem` field map. -/
lemma encode_read_mem_eq (a b c : Nat) :
    encode_command (mkCmd3 "read_mem" a b c) =
      .ok (some [a &&& 0x3F, ((b &&& 0x7F) <<< 1) ||| ((c >>> 6) &&& 0x01), c &&& 0x3F]) :=
  rfl

/-- Normal form of `encode_command` on the `abs` field map. -/
lemma encode_abs_eq (a b c : Nat) :
    encode_command (mkCmd3 "abs" a b c) =
      .ok (some [a &&& 0x3F, ((b &&& 0x7F) <<< 1) ||| ((c >>> 6) &&& 0x01), c &&& 0x3F]) :=
  rfl

/-- Normal form of `encode_command` on the `write_mem` field map. -/
lemma encode_write_mem_eq (a b c d : Nat) :
    encode_command (mkCmd4 "write_mem" a b c d) =
      .ok (some [a &&& 0x3F, (b >>> 8) &&& 0x3F, b &&& 0xFF,
        ((c &&& 0x7F) <<< 1) ||| ((d >>> 6) &&& 0x01), d &&& 0x3F]) :=
  rfl

/-- Normal form of the whole pipeline on a single `load_const` record. -/
lemma assemble_load_const_eq (k a : Nat) :
    assemble [⟨"load_const", [("constant", k), ("address", a)]⟩] =
      .ok (pack_le32 ((11 &&& 0x3F) ||| ((k &&& 0x3FFF) <<< 6) ||| ((a &&& 0x7F) <<< 20))) :=
  rfl

/-- Normal form of the whole pipeline on a single `read_mem` record. -/
lemma assemble_read_mem_eq (b c : Nat) :
    assemble [⟨"read_mem", [("result_addr", b), ("source_addr", c)]⟩] =
      .ok [24 &&& 0x3F, ((b &&& 0x7F) <<< 1) ||| ((c >>> 6) &&& 0x01), c &&& 0x3F] :=
  rfl

/-- Normal form of the whole pipeline on a single `abs` record. -/
lemma assemble_abs_eq (b c : Nat) :
    assemble [⟨"abs", [("result_addr", b), ("source_addr", c)]⟩] =
      .ok [7 &&& 0x3F, ((b &&& 0x7F) <<< 1) ||| ((c >>> 6) &&& 0x01), c &&& 0x3F] :=
  rfl

/-- Normal form of the whole pipeline on a single `write_mem` record. -/
lemma assemble_write_mem_eq (b c d : Nat) :
    assemble [⟨"write_mem", [("offset", b), ("value_addr", c), ("base_addr", d)]⟩] =
      .ok [30 &&& 0x3F, (b >>> 8) &&& 0x3F, b &&& 0xFF,
        ((c &&& 0x7F) <<< 1) ||| ((d >>> 6) &&& 0x01), d &&& 0x3F] :=
  rfl

section BumpLemmas

lemma bump64 (v : Nat) : (v + 64) &&& 63 = v &&& 63 := by
  rw [and63_eq_mod, and63_eq_mod]; omega

lemma bump16384_16383 (v : Nat) : (v + 16384) &&& 16383 = v &&& 16383 := by
  rw [and16383_eq_mod, and16383_eq_mod]; omega

lemma bump128_127 (v : Nat) : (v + 128) &&& 127 = v &&& 127 := by
  rw [and127_eq_mod, and127_eq_mod]; omega

lemma bump128_shr6 (v : Nat) : ((v + 128) >>> 6) &&& 1 = (v >>> 6) &&& 1 := by
  rw [Nat.and_one_is_mod, Nat.and_one_is_mod, shr6_eq_div, shr6_eq_div]; omega

lemma bump128_63 (v : Nat) : (v + 128) &&& 63 = v &&& 63 := by
  rw [and63_eq_mod, and63_eq_mod]; omega

lemma bump16384_shr8 (v : Nat) : ((v + 16384) >>> 8) &&& 63 = (v >>> 8) &&& 63 := by
  rw [and63_eq_mod, and63_eq_mod, shr8_eq_div, shr8_eq_div]; omega

lemma bump16384_255 (v : Nat) : (v + 16384) &&& 255 = v &&& 255 := by
  rw [and255_eq_mod, and255_eq_mod]; omega

end BumpLemmas

/-- C6: masking law.  For every mnemonic and every operand field, encoding
with value `v` and with `v + 2^width` produces byte-identical output
(width 14 for `constant`/`offset`, 7 for the address fields, and 6 for the
opcode slot `A` of the field map): out-of-range values are truncated modulo
`2^width`, never rejected. -/
theorem masking_law (A B C D : Nat) :
    (assemble [⟨"load_const", [("constant", B + 16384), ("address", C)]⟩] =
      assemble [⟨"load_const", [("constant", B), ("address", C)]⟩]) ∧
    (assemble [⟨"load_const", [("constant", B), ("address", C + 128)]⟩] =
      assemble [⟨"load_const", [("constant", B), ("address", C)]⟩]) ∧
    (assemble [⟨"read_mem", [("result_addr", B + 128), ("source_addr", C)]⟩] =
      assemble [⟨"read_mem", [("result_addr", B), ("source_addr", C)]⟩]) ∧
    (assemble [⟨"read_mem", [("result_addr", B), ("source_addr", C + 128)]⟩] =
      assemble [⟨"read_mem", [("result_addr", B), ("source_addr", C)]⟩]) ∧
    (assemble [⟨"abs", [("result_addr", B + 128), ("source_addr", C)]⟩] =
      assemble [⟨"abs", [("result_addr", B), ("source_addr", C)]⟩]) ∧
    (assemble [⟨"abs", [("result_addr", B), ("source_addr", C + 128)]⟩] =
      assemble [⟨"abs", [("result_addr", B), ("source_addr", C)]⟩]) ∧
    (assemble [⟨"write_mem", [("offset", B + 16384), ("value_addr", C), ("base_addr", D)]⟩] =
      assemble [⟨"write_mem", [("offset", B), ("value_addr", C), ("base_addr", D)]⟩]) ∧
    (assemble [⟨"write_mem", [("offset", B), ("value_addr", C + 128), ("base_addr", D)]⟩] =
      assemble [⟨"write_mem", [("offset", B), ("value_addr", C), ("base_addr", D)]⟩]) ∧
    (assemble [⟨"write_mem", [("offset", B), ("value_addr", C), ("base_addr", D + 128)]⟩] =
      assemble [⟨"write_mem", [("offset", B), ("value_addr", C), ("base_addr", D)]⟩]) ∧
    (encode_command (mkCmd3 "load_const" (A + 64) B C) =
      encode_command (mkCmd3 "load_const" A B C)) ∧
    (encode_command (mkCmd3 "read_mem" (A + 64) B C) =
      encode_command (mkCmd3 "read_mem" A B C)) ∧
    (encode_command (mkCmd3 "abs" (A + 64) B C) =
      encode_command (mkCmd3 "abs" A B C)) ∧
    (encode_command (mkCmd4 "write_mem" (A + 64) B C D) =
      encode_command (mkCmd4 "write_mem" A B C D)) := by
  refine ⟨?_, ?_, ?_, ?_, ?_, ?_, ?_, ?_, ?_, ?_, ?_, ?_, ?_⟩
  · rw [assemble_load_const_eq, assemble_load_const_eq, bump16384_16383 B]
  · rw [assemble_load_const_eq, assemble_load_const_eq, bump128_127 C]
  · rw [assemble_read_mem_eq, assemble_read_mem_eq, bump128_127 B]
  · rw [assemble_read_mem_eq, assemble_read_mem_eq, bump128_shr6 C, bump128_63 C]
  · rw [assemble_abs_eq, assemble_abs_eq, bump128_127 B]
  · rw [assemble_abs_eq, assemble_abs_eq, bump128_shr6 C, bump128_63 C]
  · rw [assemble_write_mem_eq, assemble_write_mem_eq, bump16384_shr8 B, bump16384_255 B]
  · rw [assemble_write_mem_eq, assemble_write_mem_eq, bump128_127 C]
  · rw [assemble_write_mem_eq, assemble_write_mem_eq, bump128_shr6 D, bump128_63 D]
  · rw [encode_load_const_eq, encode_load_const_eq, bump64 A]
  · rw [encode_read_mem_eq, encode_read_mem_eq, bump64 A]
  · rw [encode_abs_eq, encode_abs_eq, bump64 A]
  · rw [encode_write_mem_eq, encode_write_mem_eq, bump64 A]

/-- An abstract instruction record drawn from the four known mnemonics with
a complete non-negative operand map (the §6 input contract). -/
inductive AbsRec where
  | load_const (constant address : Nat)
  | read_mem (result_addr source_addr : Nat)
  | write_mem (offset value_addr base_addr : Nat)
  | abs (result_addr source_addr : Nat)
  deriving DecidableEq

/-- The JSON-level record for an abstract instruction. -/
def AbsRec.toSrc : AbsRec → SrcCmd
  | .load_const k a => ⟨"load_const", [("constant", k), ("address", a)]⟩
  | .read_mem b c => ⟨"read_mem", [("result_addr", b), ("source_addr", c)]⟩
  | .write_mem b c d => ⟨"write_mem", [("offset", b), ("value_addr", c), ("base_addr", d)]⟩
  | .abs b c => ⟨"abs", [("result_addr", b), ("source_addr", c)]⟩

/-- The intermediate command `parse_program` builds for an abstract record. -/
def AbsRec.toCmd : AbsRec → Cmd
  | .load_const k a => mkCmd3 "load_const" 11 k a
  | .read_mem b c => mkCmd3 "read_mem" 24 b c
  | .write_mem b c d => mkCmd4 "write_mem" 30 b c d
  | .abs b c => mkCmd3 "abs" 7 b c

/-- The bytes `encode_command` emits for an abstract record. -/
def AbsRec.bytes : AbsRec → List Nat
  | .load_const k a =>
      pack_le32 ((11 &&& 0x3F) ||| ((k &&& 0x3FFF) <<< 6) ||| ((a &&& 0x7F) <<< 20))
  | .read_mem b c => [24 &&& 0x3F, ((b &&& 0x7F) <<< 1) ||| ((c >>> 6) &&& 0x01), c &&& 0x3F]
  | .write_mem b c d => [30 &&& 0x3F, (b >>> 8) &&& 0x3F, b &&& 0xFF,
      ((c &&& 0x7F) <<< 1) ||| ((d >>> 6) &&& 0x01), d &&& 0x3F]
  | .abs b c => [7 &&& 0x3F, ((b &&& 0x7F) <<< 1) ||| ((c >>> 6) &&& 0x01), c &&& 0x3F]

/-- The per-mnemonic byte length of the §4.1 layout table. -/
def AbsRec.byteLen : AbsRec → Nat
  | .load_const _ _ => 4
  | .read_mem _ _ => 3
  | .write_mem _ _ _ => 5
  | .abs _ _ => 3

lemma parse_cmd_toSrc (r : AbsRec) : parse_cmd r.toSrc = .ok r.toCmd := by
  cases r <;> rfl

lemma encode_toCmd (r : AbsRec) : encode_command r.toCmd = .ok (some r.bytes) := by
  cases r <;> rfl

lemma parse_program_toSrc (rs : List AbsRec) :
    parse_program (rs.map AbsRec.toSrc) = .ok (rs.map AbsRec.toCmd) := by
  induction rs with
  | nil => rfl
  | cons r rs ih =>
      simp only [List.map_cons, parse_program, parse_cmd_toSrc, ih]
      rfl

lemma assemble_loop_toCmd (rs : List AbsRec) (acc : List Nat) :
    assemble_loop (rs.map AbsRec.toCmd) acc =
      .ok (acc ++ (rs.map AbsRec.bytes).flatten) := by
  induction rs generalizing acc with
  | nil => simp [assemble_loop]
  | cons r rs ih =>
      have step : assemble_loop ((r :: rs).map AbsRec.toCmd) acc =
          assemble_loop (rs.map AbsRec.toCmd) (acc ++ r.bytes) := by
        simp only [List.map_cons, assemble_loop, encode_toCmd]
        rfl
      rw [step, ih]
      simp [List.append_assoc]

/-- C4: for every sequence of records drawn from the four known mnemonics
with complete non-negative operand maps, the assembler's output is exactly
the concatenation of each record's encoded bytes in input order (no header,
footer, or length prefix); the total length is the sum of the individual
byte lengths (4 for `load_const`, 3 for `read_mem` and `abs`, 5 for
`write_mem`); and for every `i`, dropping the bytes of the first `i`
records leaves exactly the concatenated bytes of the remaining records, so
record `i`'s bytes occupy position `i` in the stream. -/
theorem assemble_is_flat_concat (rs : List AbsRec) :
    assemble (rs.map AbsRec.toSrc) = .ok ((rs.map AbsRec.bytes).flatten) ∧
    ((rs.map AbsRec.bytes).flatten).length =
      (rs.map (fun r => (AbsRec.bytes r).length)).sum ∧
    (∀ r : AbsRec, (AbsRec.bytes r).length = AbsRec.byteLen r) ∧
    (∀ i : Nat,
      ((rs.map AbsRec.bytes).flatten).drop
          (((rs.take i).map (fun r => (AbsRec.bytes r).length)).sum) =
        ((rs.drop i).map AbsRec.bytes).flatten) := by
  refine ⟨?_, ?_, ?_, ?_⟩
  · unfold assemble
    rw [parse_program_toSrc]
    exact assemble_loop_toCmd rs []
  · simp [List.length_flatten, List.map_map, Function.comp_def]
  · intro r
    cases r <;> rfl
  · intro i
    induction rs generalizing i with
    | nil => simp
    | cons r rs ih =>
        cases i with
        | zero => simp
        | succ j =>
            simp only [List.take_succ_cons, List.map_cons, List.sum_cons,
              List.flatten_cons, List.drop_succ_cons]
            rw [← List.drop_drop, List.drop_left]
            exact ih j

/-- C5: what the code actually does on an unrecognized mnemonic (`jmp`).
`parse_program` silently accepts the record with an empty field map;
`encode_command` then returns `None`, so `assemble_to_binary` crashes with
a `TypeError` (from `bytes + None`) that names neither the record's
position nor its mnemonic — not the unrecognized-instruction error the
spec requires.  The sink does receive zero bytes, since the output file is
only opened after the loop. -/
theorem unknown_mnemonic_crashes_with_typeerror :
    parse_program [⟨"jmp", [("target", 0)]⟩] = .ok [⟨"jmp", []⟩] ∧
    assemble [⟨"jmp", [("target", 0)]⟩] = .error .typeError ∧
    assemble [⟨"load_const", [("constant", 693), ("address", 81)]⟩,
      ⟨"jmp", [("target", 0)]⟩] = .error .typeError ∧
    sink_bytes (assemble [⟨"jmp", [("target", 0)]⟩]) = [] := by
  exact ⟨rfl, rfl, rfl, rfl⟩

/-- C8 counterexample: the error raised for a known mnemonic missing a
required operand is Python's bare `KeyError` on the operand name; records
with different mnemonics (`read_mem` and `abs`) missing the same field
produce the identical error, so the error cannot be naming the mnemonic. -/
theorem missing_operand_error_lacks_mnemonic :
    assemble [⟨"read_mem", [("source_addr", 29)]⟩] =
      assemble [⟨"abs", [("source_addr", 29)]⟩] ∧
    assemble [⟨"read_mem", [("source_addr", 29)]⟩] =
      .error (.keyError "result_addr") := by
  exact ⟨rfl, rfl⟩

/-- The operand names `parse_program` demands for each known mnemonic, in
the order it reads them. -/
def requiredFields (t : String) : List String :=
  if t = "load_const" then ["constant", "address"]
  else if t = "read_mem" then ["result_addr", "source_addr"]
  else if t = "write_mem" then ["offset", "value_addr", "base_addr"]
  else if t = "abs" then ["result_addr", "source_addr"]
  else []


lemma parse_program_cons_error (c : SrcCmd) (cs : List SrcCmd) (e : PyErr)
    (h : parse_cmd c = .error e) : parse_program (c :: cs) = .error e := by
  simp only [parse_program, h]
  rfl

/-- C8 (amended): for every record of a known mnemonic whose operand map is
missing a required field, the whole assembly fails with a key error naming
an absent field (the first one the parser reads; the mnemonic itself is not
part of the error), and no partial binary is emitted: the sink receives
zero bytes. -/
theorem missing_operand_aborts_assembly (r : SrcCmd) (rest : List SrcCmd)
    (hknown : r.type = "load_const" ∨ r.type = "read_mem" ∨
      r.type = "write_mem" ∨ r.type = "abs")
    (hmiss : ∃ f ∈ requiredFields r.type, lookup_field r.args f = none) :
    ∃ f ∈ requiredFields r.type, lookup_field r.args f = none ∧
      assemble (r :: rest) = .error (.keyError f) ∧
      sink_bytes (assemble (r :: rest)) = [] := by
  obtain ⟨t, args⟩ := r
  dsimp only at hknown hmiss ⊢
  have key : ∀ e : PyErr, parse_cmd ⟨t, args⟩ = .error e →
      assemble (⟨t, args⟩ :: rest) = .error e ∧
      sink_bytes (assemble (⟨t, args⟩ :: rest)) = [] := by
    intro e he
    have hp := parse_program_cons_error ⟨t, args⟩ rest e he
    exact ⟨by simp [assemble, hp], by simp [assemble, hp, sink_bytes]⟩
  rcases hknown with ht | ht | ht | ht <;> subst ht
  · cases h1 : lookup_field args "constant" with
    | none =>
        refine ⟨"constant", by simp [requiredFields], h1, ?_⟩
        refine key _ ?_
        simp [parse_cmd, dictGet, h1, commands, lookup_field]
        rfl
    | some v =>
        have h2 : lookup_field args "address" = none := by
          obtain ⟨f, hf, hnone⟩ := hmiss
          have hf2 : f = "constant" ∨ f = "address" := by
            simpa [requiredFields] using hf
          rcases hf2 with rfl | rfl
          · rw [h1] at hnone; cases hnone
          · exact hnone
        refine ⟨"address", by simp [requiredFields], h2, ?_⟩
        refine key _ ?_
        simp [parse_cmd, dictGet, h1, h2, commands, lookup_field]
        rfl
  · cases h1 : lookup_field args "result_addr" with
    | none =>
        refine ⟨"result_addr", by simp [requiredFields], h1, ?_⟩
        refine key _ ?_
        simp [parse_cmd, dictGet, h1, commands, lookup_field]
        rfl
    | some v =>
        have h2 : lookup_field args "source_addr" = none := by
          obtain ⟨f, hf, hnone⟩ := hmiss
          have hf2 : f = "result_addr" ∨ f = "source_addr" := by
            simpa [requiredFields] using hf
          rcases hf2 with rfl | rfl
          · rw [h1] at hnone; cases hnone
          · exact hnone
        refine ⟨"source_addr", by simp [requiredFields], h2, ?_⟩
        refine key _ ?_
        simp [parse_cmd, dictGet, h1, h2, commands, lookup_field]
        rfl
  · cases h1 : lookup_field args "offset" with
    | none =>
        refine ⟨"offset", by simp [requiredFields], h1, ?_⟩
        refine key _ ?_
        simp [parse_cmd, dictGet, h1, commands, lookup_field]
        rfl
    | some v =>
        cases h2 : lookup_field args "value_addr" with
        | none =>
            refine ⟨"value_addr", by simp [requiredFields], h2, ?_⟩
            refine key _ ?_
            simp [parse_cmd, dictGet, h1, h2, commands, lookup_field]
            rfl
        | some w =>
            have h3 : lookup_field args "base_addr" = none := by
              obtain ⟨f, hf, hnone⟩ := hmiss
              have hf3 : f = "offset" ∨ f = "value_addr" ∨ f = "base_addr" := by
                simpa [requiredFields] using hf
              rcases hf3 with rfl | rfl | rfl
              · rw [h1] at hnone; cases hnone
              · rw [h2] at hnone; cases hnone
              · exact hnone
            refine ⟨"base_addr", by simp [requiredFields], h3, ?_⟩
            refine key _ ?_
            simp [parse_cmd, dictGet, h1, h2, h3, commands, lookup_field]
            rfl
  · cases h1 : lookup_field args "result_addr" with
    | none =>
        refine ⟨"result_addr", by simp [requiredFields], h1, ?_⟩
        refine key _ ?_
        simp [parse_cmd, dictGet, h1, commands, lookup_field]
        rfl
    | some v =>
        have h2 : lookup_field args "source_addr" = none := by
          obtain ⟨f, hf, hnone⟩ := hmiss
          have hf2 : f = "result_addr" ∨ f = "source_addr" := by
            simpa [requiredFields] using hf
          rcases hf2 with rfl | rfl
          · rw [h1] at hnone; cases hnone
          · exact hnone
        refine ⟨"source_addr", by simp [requiredFields], h2, ?_⟩
        refine key _ ?_
        simp [parse_cmd, dictGet, h1, h2, commands, lookup_field]
        rfl

/-- C8 witness: a `load_const` record missing its `constant` operand makes
the assembly fail with a `KeyError` on an absent field and zero sink bytes. -/
theorem missing_operand_aborts_assembly_witness :
    ((("load_const" : String) = "load_const" ∨ ("load_const" : String) = "read_mem" ∨
        ("load_const" : String) = "write_mem" ∨ ("load_const" : String) = "abs") ∧
      (∃ f ∈ requiredFields "load_const",
        lookup_field [("address", 81)] f = none)) ∧
    (∃ f ∈ requiredFields "load_const",
      lookup_field [("address", 81)] f = none ∧
      assemble [⟨"load_const", [("address", 81)]⟩] = .error (.keyError f) ∧
      sink_bytes (assemble [⟨"load_const", [("address", 81)]⟩]) = []) :=
  ⟨⟨Or.inl rfl, ⟨"constant", by simp [requiredFields], rfl⟩⟩,
    missing_operand_aborts_assembly ⟨"load_const", [("address", 81)]⟩ []
      (Or.inl rfl) ⟨"constant", by simp [requiredFields], rfl⟩⟩

/-- The byte list `encode_command` produces for a command it recognizes
(`[]` in the impossible branches). -/
def packed_bytes (c : Cmd) : List Nat :=
  match encode_command c with
  | .ok (some bs) => bs
  | _ => []

lemma packed_bytes_of_encode {c : Cmd} {bs : List Nat}
    (h : encode_command c = .ok (some bs)) : packed_bytes c = bs := by
  simp [packed_bytes, h]

/-- Test-only decoder for the 4-byte `load_const` layout, inverting the
spec formulas: rebuild the little-endian 32-bit word from the 4 bytes, then
extract `constant = (word >> 6) & 0x3FFF` and `address = (word >> 20) & 0x7F`
(written in div/mod form). -/
def decode_load_const (bs : List Nat) : Nat × Nat :=
  ((bs.getD 0 0 + 256 * bs.getD 1 0 + 65536 * bs.getD 2 0 + 16777216 * bs.getD 3 0)
      / 64 % 16384,
   (bs.getD 0 0 + 256 * bs.getD 1 0 + 65536 * bs.getD 2 0 + 16777216 * bs.getD 3 0)
      / 1048576 % 128)

/-- Test-only decoder for the 3-byte layout (`read_mem`, `abs`):
`B = (byte1 >> 1) & 0x7F` and `C = ((byte1 & 1) << 6) | byte2`. -/
def decode_reg3 (bs : List Nat) : Nat × Nat :=
  (bs.getD 1 0 / 2 % 128, bs.getD 1 0 % 2 * 64 + bs.getD 2 0)

/-- Test-only decoder for the 5-byte `write_mem` layout:
`offset = (byte1 << 8) | byte2`, `value_addr = (byte3 >> 1) & 0x7F`,
`base_addr = ((byte3 & 1) << 6) | byte4`. -/
def decode_write_mem (bs : List Nat) : Nat × Nat × Nat :=
  (bs.getD 1 0 * 256 + bs.getD 2 0, bs.getD 3 0 / 2 % 128,
   bs.getD 3 0 % 2 * 64 + bs.getD 4 0)

/-- C7: for all four mnemonics, if every operand is within its declared bit
width (`constant`/`offset < 2^14`, address fields `< 2^7`), decoding the
bytes `encode_command` emits with the inverse of the §4.2 packing formulas
recovers every operand exactly: encode-then-decode is the identity on
in-range operand maps. -/
theorem encode_decode_roundtrip (k a B C off v d : Nat)
    (hk : k < 16384) (ha : a < 128) (hB : B < 128) (hC : C < 128)
    (hoff : off < 16384) (hv : v < 128) (hd : d < 128) :
    decode_load_const (packed_bytes (mkCmd3 "load_const" 11 k a)) = (k, a) ∧
    decode_reg3 (packed_bytes (mkCmd3 "read_mem" 24 B C)) = (B, C) ∧
    decode_reg3 (packed_bytes (mkCmd3 "abs" 7 B C)) = (B, C) ∧
    decode_write_mem (packed_bytes (mkCmd4 "write_mem" 30 off v d)) = (off, v, d) := by
  refine ⟨?_, ?_, ?_, ?_⟩
  · rw [packed_bytes_of_encode (encode_load_const_eq 11 k a)]
    have hW : (11 &&& 0x3F) ||| ((k &&& 0x3FFF) <<< 6) ||| ((a &&& 0x7F) <<< 20) =
        1048576 * a + 64 * k + 11 := by
      rw [show ((0x3F : Nat) = 63) from rfl, show ((0x3FFF : Nat) = 16383) from rfl,
        show ((0x7F : Nat) = 127) from rfl, word_arith,
        Nat.mod_eq_of_lt ha, Nat.mod_eq_of_lt hk]
    rw [hW]
    simp only [pack_le32, decode_load_const, List.getD_cons_zero, List.getD_cons_succ,
      and255_eq_mod, shr8_eq_div, shr16_eq_div, shr24_eq_div]
    have hrec : (1048576 * a + 64 * k + 11) % 256 +
        256 * ((1048576 * a + 64 * k + 11) / 256 % 256) +
        65536 * ((1048576 * a + 64 * k + 11) / 65536 % 256) +
        16777216 * ((1048576 * a + 64 * k + 11) / 16777216 % 256) =
        1048576 * a + 64 * k + 11 := by
      omega
    rw [hrec]
    refine Prod.ext ?_ ?_ <;> dsimp only <;> omega
  · rw [packed_bytes_of_encode (encode_read_mem_eq 24 B C)]
    simp only [decode_reg3, List.getD_cons_zero, List.getD_cons_succ,
      byte2_arith, and63_eq_mod]
    refine Prod.ext ?_ ?_ <;> dsimp only <;> omega
  · rw [packed_bytes_of_encode (encode_abs_eq 7 B C)]
    simp only [decode_reg3, List.getD_cons_zero, List.getD_cons_succ,
      byte2_arith, and63_eq_mod]
    refine Prod.ext ?_ ?_ <;> dsimp only <;> omega
  · rw [packed_bytes_of_encode (encode_write_mem_eq 30 off v d)]
    simp only [decode_write_mem, List.getD_cons_zero, List.getD_cons_succ,
      byte2_arith, and63_eq_mod, and255_eq_mod, shr8_eq_div]
    refine Prod.ext ?_ (Prod.ext ?_ ?_) <;> dsimp only <;> omega

/-- C7 witness: the round trip at the concrete in-range operands of the
repository's own demo program. -/
theorem encode_decode_roundtrip_witness :
    ((693 : Nat) < 16384 ∧ (81 : Nat) < 128 ∧ (94 : Nat) < 128 ∧ (29 : Nat) < 128 ∧
      (77 : Nat) < 16384 ∧ (5 : Nat) < 128 ∧ (85 : Nat) < 128) ∧
    (decode_load_const (packed_bytes (mkCmd3 "load_const" 11 693 81)) = (693, 81) ∧
     decode_reg3 (packed_bytes (mkCmd3 "read_mem" 24 94 29)) = (94, 29) ∧
     decode_reg3 (packed_bytes (mkCmd3 "abs" 7 94 29)) = (94, 29) ∧
     decode_write_mem (packed_bytes (mkCmd4 "write_mem" 30 77 5 85)) = (77, 5, 85)) :=
  ⟨by norm_num,
    encode_decode_roundtrip 693 81 94 29 77 5 85 (by norm_num) (by norm_num)
      (by norm_num) (by norm_num) (by norm_num) (by norm_num) (by norm_num)⟩
